import Mathlib

/-!
Shallow embedding of the account / verification-code service:
  - `EmailVerification` (src/email_verify.py)
  - `SMSVerification` (src/sms_verify.py)
  - `UserManagerBcrypt` and `UserManager` (src/user_manager.py; the file holds two
    class bodies named `UserManager`, a bcrypt one followed by a sha256 one — in
    Python the second definition shadows the first, so the sha256 body is the
    effective `UserManager` and the bcrypt body is embedded as `UserManagerBcrypt`).

Conventions of the embedding:
  - Each sqlite table keyed by a TEXT primary key is a `List (String × row)`;
    `SELECT ... WHERE key = ?` is `lookupKey`, `INSERT OR REPLACE` is `upsertKey`,
    `DELETE ... WHERE key = ?` is `eraseKey`, `UPDATE ... WHERE key = ?` is
    `updateKey`.
  - Wall-clock times (`datetime.now()` and the `%Y-%m-%d %H:%M:%S` strings stored
    in the tables) are seconds, as `Int`, matching the signed
    `(a - b).total_seconds()` comparisons of the source.
  - The random 6-digit code produced by `generate_code` and the outcome of the
    outbound channel (SMTP raising / the SMS gateway response) are parameters of
    `send_code`, since both are external to the logic being verified.
  - The distinct `(bool, str)` result strings of the source are the constructors
    of `VMsg`, one per distinct message.
-/

/-- `SELECT row FROM t WHERE key = k` on a keyed association list. -/
def lookupKey {α : Type} (t : List (String × α)) (k : String) : Option α :=
  (t.find? (fun p => p.1 == k)).map Prod.snd

/-- `DELETE FROM t WHERE key = k`. -/
def eraseKey {α : Type} (t : List (String × α)) (k : String) : List (String × α) :=
  t.filter (fun p => p.1 != k)

/-- `INSERT OR REPLACE INTO t VALUES (k, v)` (the keyed upsert of the source). -/
def upsertKey {α : Type} (t : List (String × α)) (k : String) (v : α) :
    List (String × α) :=
  (k, v) :: eraseKey t k

/-- `UPDATE t SET ... WHERE key = k`, applying `f` to the stored row. -/
def updateKey {α : Type} (t : List (String × α)) (k : String) (f : α → α) :
    List (String × α) :=
  t.map (fun p => if p.1 == k then (p.1, f p.2) else p)

/-- One row of the `verification_codes` table
(`email`/`phone` TEXT PRIMARY KEY, `code`, `created_time`, `attempts`,
`last_attempt_time`; the time columns are nullable TEXT, here seconds). -/
structure CodeRow where
  code : String
  created_time : Int
  attempts : Int
  last_attempt_time : Option Int
deriving Repr, DecidableEq

abbrev VTable := List (String × CodeRow)

/-- The distinct result strings of `send_code` / `verify_code`, one constructor per
distinct message of the source. -/
inductive VMsg where
  /-- "请等待60秒后再次获取验证码" -/
  | cooldownWait
  /-- "24小时内验证码获取次数已达上限" -/
  | dailyLimitReached
  /-- "验证码已发送到您的邮箱" / "验证码已发送" -/
  | sentOk
  /-- "发送失败: ..." (SMTP exception, non-OK gateway response, or gateway exception) -/
  | sendFailed
  /-- "验证码不存在" -/
  | codeNotFound
  /-- "验证码已过期" -/
  | codeExpired
  /-- "验证码错误" -/
  | codeMismatch
  /-- "验证成功" -/
  | verifyOk
deriving Repr, DecidableEq

/-- Result of a `send_code` call: the `(bool, str)` return value, the table after
the call, and the code handed to the outbound channel (`none` when the call
returned before any dispatch was attempted). -/
structure SendOutcome where
  ok : Bool
  msg : VMsg
  table : VTable
  dispatched : Option String
deriving Repr, DecidableEq

/-- Result of a `verify_code` call: the `(bool, str)` return value and the table
after the call. -/
structure VerifyOutcome where
  ok : Bool
  msg : VMsg
  table : VTable
deriving Repr, DecidableEq

namespace EmailVerification

/-- Embeds `EmailVerification.send_code` (src/email_verify.py lines 43-120).
`now` is `datetime.now()`, `newCode` the value of `generate_code()`, and
`smtpOk` whether the SMTP block (connect, starttls, login, send, quit)
completes without raising. -/
def send_code (table : VTable) (email : String) (now : Int) (newCode : String)
    (smtpOk : Bool) : SendOutcome :=
  match lookupKey table email with
  | some row =>
    -- if last_attempt and (current_time - last_attempt).total_seconds() < 60
    if (match row.last_attempt_time with
        | some la => decide (now - la < 60)
        | none => false) then
      ⟨false, .cooldownWait, table, none⟩
    -- if attempts >= 5 and (current_time - created_time).total_seconds() < 24*3600
    else if 5 ≤ row.attempts ∧ now - row.created_time < 24 * 3600 then
      ⟨false, .dailyLimitReached, table, none⟩
    else
      -- attempts reset to 0 when the branch above fell through with attempts >= 5
      let attempts : Int := if 5 ≤ row.attempts then 0 else row.attempts
      if smtpOk then
        ⟨true, .sentOk,
          upsertKey table email ⟨newCode, now, attempts + 1, some now⟩,
          some newCode⟩
      else
        ⟨false, .sendFailed, table, some newCode⟩
  | none =>
    if smtpOk then
      ⟨true, .sentOk, upsertKey table email ⟨newCode, now, 1, some now⟩,
        some newCode⟩
    else
      ⟨false, .sendFailed, table, some newCode⟩

/-- Embeds `EmailVerification.verify_code` (src/email_verify.py lines 122-157). -/
def verify_code (table : VTable) (email : String) (code : String) (now : Int) :
    VerifyOutcome :=
  match lookupKey table email with
  | none => ⟨false, .codeNotFound, table⟩
  | some row =>
    -- if (datetime.now() - created_time).total_seconds() > 15 * 60
    if 15 * 60 < now - row.created_time then ⟨false, .codeExpired, table⟩
    else if code ≠ row.code then ⟨false, .codeMismatch, table⟩
    else ⟨true, .verifyOk, eraseKey table email⟩

/-- Character class `[a-zA-Z0-9._%+-]` of the local part of the e-mail regex. -/
def isLocalChar (c : Char) : Bool :=
  c.isAlpha || c.isDigit || c = '.' || c = '_' || c = '%' || c = '+' || c = '-'

/-- Character class `[a-zA-Z0-9.-]` of the domain part of the e-mail regex. -/
def isDomainChar (c : Char) : Bool :=
  c.isAlpha || c.isDigit || c = '.' || c = '-'

/-- Splits a character list at its last `'.'`: `some (before, after)` with the
dot removed and `after` dot-free, `none` when no dot occurs. -/
def splitLastDot (cs : List Char) : Option (List Char × List Char) :=
  let r := cs.reverse
  let t := r.takeWhile (fun c => c ≠ '.')
  match r.drop t.length with
  | '.' :: dRev => some (dRev.reverse, t.reverse)
  | _ => none

/-- Embeds `EmailVerification.is_valid_email` (src/email_verify.py lines 159-162):
`re.match(r^[a-zA-Z0-9._%+-]+@[a-zA-Z0-9.-]+\.[a-zA-Z]\x7b2,\x7d$, email)`.
A string matches iff it decomposes as `local ++ "@" ++ d ++ "." ++ tld` with
`local` nonempty over the local class, `d` nonempty over the domain class, and
`tld` at least two letters; since the tld is dot-free the viable split is at
the last dot. Character classes are the ASCII ones of the pattern. -/
def is_valid_email (email : String) : Bool :=
  let cs := email.toList
  let l := cs.takeWhile isLocalChar
  match cs.drop l.length with
  | '@' :: domainPart =>
    match splitLastDot domainPart with
    | some (d, tld) =>
      decide (l ≠ []) && decide (d ≠ []) && d.all isDomainChar &&
        tld.all Char.isAlpha && decide (2 ≤ tld.length)
    | none => false
  | _ => false

end EmailVerification

namespace SMSVerification

/-- Embeds `SMSVerification.send_code` (src/sms_verify.py lines 57-122). `now` is
`datetime.now()`, `newCode` the value of `generate_code()`, and `respOk` whether
the gateway call returns with `response.body.code == "OK"` (a non-OK response
and a raised exception take the same observable path: failure result, no
write). -/
def send_code (table : VTable) (phone_number : String) (now : Int)
    (newCode : String) (respOk : Bool) : SendOutcome :=
  match lookupKey table phone_number with
  | some row =>
    if (match row.last_attempt_time with
        | some la => decide (now - la < 60)
        | none => false) then
      ⟨false, .cooldownWait, table, none⟩
    else if 5 ≤ row.attempts ∧ now - row.created_time < 24 * 3600 then
      ⟨false, .dailyLimitReached, table, none⟩
    else
      let attempts : Int := if 5 ≤ row.attempts then 0 else row.attempts
      if respOk then
        ⟨true, .sentOk,
          upsertKey table phone_number ⟨newCode, now, attempts + 1, some now⟩,
          some newCode⟩
      else
        ⟨false, .sendFailed, table, some newCode⟩
  | none =>
    if respOk then
      ⟨true, .sentOk, upsertKey table phone_number ⟨newCode, now, 1, some now⟩,
        some newCode⟩
    else
      ⟨false, .sendFailed, table, some newCode⟩

/-- Embeds `SMSVerification.verify_code` (src/sms_verify.py lines 124-159). -/
def verify_code (table : VTable) (phone_number : String) (code : String)
    (now : Int) : VerifyOutcome :=
  match lookupKey table phone_number with
  | none => ⟨false, .codeNotFound, table⟩
  | some row =>
    if 15 * 60 < now - row.created_time then ⟨false, .codeExpired, table⟩
    else if code ≠ row.code then ⟨false, .codeMismatch, table⟩
    else ⟨true, .verifyOk, eraseKey table phone_number⟩

/-- Embeds `SMSVerification.is_valid_phone` (src/sms_verify.py lines 161-165):
`re.match(r^1[3-9]\d\x7b9\x7d$, phone_number)`: eleven digits starting with 1,
second digit 3-9. -/
def is_valid_phone (phone_number : String) : Bool :=
  match phone_number.toList with
  | '1' :: c2 :: rest =>
    ('3' ≤ c2 && c2 ≤ '9') && rest.length == 9 && rest.all Char.isDigit
  | _ => false

end SMSVerification

/-- A stored `password_hash` value. The hash primitives themselves are out of
scope (spec section 1): they are modelled as injective constructors carrying the
hashed password, `sha256` for `hashlib.sha256(...).hexdigest()` and `bcrypt`
for `bcrypt.hashpw(..., gensalt())` with its salt. -/
inductive HashVal where
  | sha256 (password : String)
  | bcrypt (password : String) (salt : Nat)
deriving Repr, DecidableEq

/-- One row of the `users` table (src/user_manager.py `init_db`): `username` is
the TEXT PRIMARY KEY of the keyed list. -/
structure UserRow where
  password_hash : HashVal
  email : String
  quota_limit : Int
  quota_used : Int
  last_reset_date : String
  is_admin : Bool
deriving Repr, DecidableEq

abbrev UsersTable := List (String × UserRow)

namespace UserManager

/-- Embeds `UserManager.hash_password` of the effective (sha256) class body
(src/user_manager.py lines 244-245). -/
def hash_password (password : String) : HashVal :=
  .sha256 password

/-- Embeds `UserManager.verify_user` of the effective (sha256) class body
(src/user_manager.py lines 262-271). The function only SELECTs between opening
and closing its connection, so the table is returned unchanged. -/
def verify_user (t : UsersTable) (username : String) (password : String) :
    Bool × UsersTable :=
  match lookupKey t username with
  | none => (false, t)
  | some u => (u.password_hash == hash_password password, t)

/-- Embeds `UserManager.deduct_conversation` (src/user_manager.py lines 286-321;
the bcrypt class body at lines 94-129 is textually identical). Returns the
`bool` result and the table after the call. -/
def deduct_conversation (t : UsersTable) (username : String) (count : Int) :
    Bool × UsersTable :=
  match lookupKey t username with
  | none => (false, t)
  | some u =>
    -- if quota_used + count > quota_limit: refuse, leave the row alone
    if u.quota_limit < u.quota_used + count then (false, t)
    else
      -- UPDATE users SET quota_used = quota_used + ? WHERE username = ?
      (true, updateKey t username (fun v => { v with quota_used := v.quota_used + count }))

end UserManager

namespace UserManagerBcrypt

/-- Embeds `UserManager.hash_password` of the first (bcrypt) class body
(src/user_manager.py lines 48-50); `salt` stands for `bcrypt.gensalt()`. -/
def hash_password (password : String) (salt : Nat) : HashVal :=
  .bcrypt password salt

/-- Embeds `UserManager.verify_password` (src/user_manager.py lines 52-53).
`bcrypt.checkpw` succeeds or fails on a well-formed bcrypt hash and raises
`ValueError: Invalid salt` when the stored value is not in bcrypt format (as a
legacy sha256 hex digest is not); the raise is the `Except.error` case. -/
def verify_password (password : String) (hashed : HashVal) : Except String Bool :=
  match hashed with
  | .bcrypt p _ => .ok (password == p)
  | .sha256 _ => .error "Invalid salt"

/-- Embeds `UserManager.verify_user` of the first (bcrypt) class body
(src/user_manager.py lines 70-79). An exception from `verify_password`
propagates out of the method uncaught; the method performs no write, so the
table is returned unchanged. -/
def verify_user (t : UsersTable) (username : String) (password : String) :
    Except String Bool × UsersTable :=
  match lookupKey t username with
  | none => (.ok false, t)
  | some u =>
    match verify_password password u.password_hash with
    | .error e => (.error e, t)
    | .ok b => (.ok b, t)

end UserManagerBcrypt

/-- The spec's running example user: quota_limit 1000, quota_used 999. -/
def bobRow : UserRow :=
  { password_hash := .sha256 "hunter2", email := "bob@example.com",
    quota_limit := 1000, quota_used := 999,
    last_reset_date := "2026-01-01", is_admin := false }

def exUsers : UsersTable := [("bob", bobRow)]

/-- A user with a small positive balance, used to exercise negative counts. -/
def carolRow : UserRow :=
  { password_hash := .sha256 "pw", email := "carol@example.com",
    quota_limit := 1000, quota_used := 5,
    last_reset_date := "2026-01-01", is_admin := false }

def exUsers2 : UsersTable := [("carol", carolRow)]

/-- A user whose stored hash is in the legacy weak (sha256) format; "pw123" is
the correct password. -/
def legacyRow : UserRow :=
  { password_hash := .sha256 "pw123", email := "alice@example.com",
    quota_limit := 1000, quota_used := 0,
    last_reset_date := "2026-01-01", is_admin := false }

def legacyUsers : UsersTable := [("alice", legacyRow)]

/-- A stored verification code issued at time 0. -/
def exCodeRow : CodeRow := ⟨"123456", 0, 1, some 0⟩

def exCodes : VTable := [("a@b.co", exCodeRow)]

/-- A stored verification row that has reached the issuance cap: fifth code
created at time 280, attempts 5. -/
def cappedRow : CodeRow := ⟨"c5", 280, 5, some 280⟩

def cappedCodes : VTable := [("13912345678", cappedRow)]

/-- One successful e-mail issuance step for the fixed identity "a@b.co". -/
def rateLimitStep (t : VTable) (now : Int) (code : String) : VTable :=
  (EmailVerification.send_code t "a@b.co" now code true).table

/-- The table reached by five successful e-mail issuances for "a@b.co" at times
0, 70, 140, 210 and 280 — each past the 60-second cooldown, channel
succeeding every time. -/
def rateLimitState : VTable :=
  rateLimitStep (rateLimitStep (rateLimitStep (rateLimitStep
    (rateLimitStep [] 0 "c1") 70 "c2") 140 "c3") 210 "c4") 280 "c5"

theorem lookupKey_upsertKey_self {α : Type} (t : List (String × α)) (k : String)
    (v : α) : lookupKey (upsertKey t k v) k = some v := by
  simp [lookupKey, upsertKey, List.find?]

theorem lookupKey_eraseKey_self {α : Type} (t : List (String × α)) (k : String) :
    lookupKey (eraseKey t k) k = none := by
  rw [lookupKey, Option.map_eq_none', List.find?_eq_none]
  intro x hx
  have h := List.of_mem_filter hx
  simp only [bne_iff_ne, ne_eq] at h
  simpa using h

theorem lookupKey_cons {α : Type} (p : String × α) (rest : List (String × α))
    (k : String) :
    lookupKey (p :: rest) k = if p.1 == k then some p.2 else lookupKey rest k := by
  by_cases h : (p.1 == k) = true
  · have hp : (fun q : String × α => q.1 == k) p = true := h
    rw [lookupKey, List.find?_cons_of_pos rest hp, Option.map_some', if_pos h]
  · have hp : ¬(fun q : String × α => q.1 == k) p = true := h
    rw [lookupKey, List.find?_cons_of_neg rest hp, if_neg h]
    rfl

theorem lookupKey_updateKey_self {α : Type} (t : List (String × α)) (k : String)
    (f : α → α) (v : α) (hv : lookupKey t k = some v) :
    lookupKey (updateKey t k f) k = some (f v) := by
  induction t with
  | nil => simp [lookupKey] at hv
  | cons p rest ih =>
    rw [lookupKey_cons] at hv
    cases hb : (p.1 == k) with
    | true =>
      rw [if_pos hb] at hv
      simp only [updateKey, List.map_cons, hb, if_true, lookupKey_cons]
      simp [Option.some.inj hv]
    | false =>
      rw [if_neg (by simp [hb])] at hv
      simp only [updateKey, List.map_cons, hb, if_false, lookupKey_cons,
        Bool.false_eq_true]
      simpa [updateKey] using ih hv

/-- The two `send_code` bodies are copies of each other; the embedded functions
are definitionally equal. -/
theorem sms_send_code_eq_email : SMSVerification.send_code = EmailVerification.send_code :=
  rfl

/-- The two `verify_code` bodies are copies of each other; the embedded functions
are definitionally equal. -/
theorem sms_verify_code_eq_email :
    SMSVerification.verify_code = EmailVerification.verify_code :=
  rfl

/-- C1: starting from a user row satisfying quota_used ≤ quota_limit,
`deduct_conversation` refuses and leaves the table unchanged when
quota_used + count would exceed quota_limit, succeeds and adds count to
quota_used otherwise, and in either case the stored quota_used never exceeds
quota_limit afterwards. -/
theorem claim_C1_deduct_never_exceeds_limit (t : UsersTable) (username : String)
    (count : Int) (u : UserRow) (hu : lookupKey t username = some u)
    (hinv : u.quota_used ≤ u.quota_limit) :
    (u.quota_limit < u.quota_used + count →
      UserManager.deduct_conversation t username count = (false, t)) ∧
    (u.quota_used + count ≤ u.quota_limit →
      UserManager.deduct_conversation t username count
        = (true, updateKey t username
            (fun v => { v with quota_used := v.quota_used + count })) ∧
      lookupKey (UserManager.deduct_conversation t username count).2 username
        = some { u with quota_used := u.quota_used + count }) ∧
    (∀ w, lookupKey (UserManager.deduct_conversation t username count).2 username
        = some w → w.quota_used ≤ w.quota_limit) := by
  have hupd := lookupKey_updateKey_self t username
    (fun v => { v with quota_used := v.quota_used + count }) u hu
  by_cases hc : u.quota_limit < u.quota_used + count
  · have heq : UserManager.deduct_conversation t username count = (false, t) := by
      simp [UserManager.deduct_conversation, hu, hc]
    refine ⟨fun _ => heq, fun hle => absurd hc (not_lt.mpr hle), fun w hw => ?_⟩
    rw [heq] at hw
    simp only at hw
    rw [hu] at hw
    cases Option.some.inj hw
    exact hinv
  · have heq : UserManager.deduct_conversation t username count
        = (true, updateKey t username
            (fun v => { v with quota_used := v.quota_used + count })) := by
      simp [UserManager.deduct_conversation, hu, hc]
    refine ⟨fun hcc => absurd hcc hc, fun _ => ⟨heq, ?_⟩, fun w hw => ?_⟩
    · rw [heq]
      simpa using hupd
    · rw [heq] at hw
      simp only at hw
      rw [hupd] at hw
      cases Option.some.inj hw
      simpa using not_lt.mp hc

/-- C1 witness, at the spec's example: limit 1000, used 999; count 2 is refused
with the row unchanged, count 1 succeeds and reaches exactly 1000. -/
theorem claim_C1_witness :
    UserManager.deduct_conversation exUsers "bob" 2 = (false, exUsers) ∧
    UserManager.deduct_conversation exUsers "bob" 1
      = (true, updateKey exUsers "bob"
          (fun v => { v with quota_used := v.quota_used + 1 })) ∧
    lookupKey (UserManager.deduct_conversation exUsers "bob" 1).2 "bob"
      = some { bobRow with quota_used := bobRow.quota_used + 1 } := by
  have h2 := claim_C1_deduct_never_exceeds_limit exUsers "bob" 2 bobRow
    (by decide) (by decide)
  have h1 := claim_C1_deduct_never_exceeds_limit exUsers "bob" 1 bobRow
    (by decide) (by decide)
  exact ⟨h2.1 (by decide), (h1.2.1 (by decide)).1, (h1.2.1 (by decide)).2⟩

/-- C10: `deduct_conversation` performs no validation on `count`: for any
existing user and any integer count — zero and negative included — with
quota_used + count ≤ quota_limit, the call returns true and sets quota_used to
quota_used + count. -/
theorem claim_C10_deduct_accepts_any_count (t : UsersTable) (username : String)
    (count : Int) (u : UserRow) (hu : lookupKey t username = some u)
    (hle : u.quota_used + count ≤ u.quota_limit) :
    (UserManager.deduct_conversation t username count).1 = true ∧
    lookupKey (UserManager.deduct_conversation t username count).2 username
      = some { u with quota_used := u.quota_used + count } := by
  have hc := not_lt.mpr hle
  have heq : UserManager.deduct_conversation t username count
      = (true, updateKey t username
          (fun v => { v with quota_used := v.quota_used + count })) := by
    simp [UserManager.deduct_conversation, hu, hc]
  have hupd := lookupKey_updateKey_self t username
    (fun v => { v with quota_used := v.quota_used + count }) u hu
  refine ⟨by rw [heq], ?_⟩
  rw [heq]
  simpa using hupd

/-- C10 witness: a negative count is accepted and drives quota_used below zero
(used 5, count -10, new quota_used -5). -/
theorem claim_C10_witness :
    (UserManager.deduct_conversation exUsers2 "carol" (-10)).1 = true ∧
    lookupKey (UserManager.deduct_conversation exUsers2 "carol" (-10)).2 "carol"
      = some { carolRow with quota_used := carolRow.quota_used + (-10) } ∧
    carolRow.quota_used + (-10) = -5 ∧ (-5 : Int) < 0 := by
  have h := claim_C10_deduct_accepts_any_count exUsers2 "carol" (-10) carolRow
    (by decide) (by decide)
  exact ⟨h.1, h.2, by decide, by decide⟩

/-- `verify_code` with no stored row: the not-found rejection. -/
theorem email_verify_notFound (t : VTable) (identity code : String) (now : Int)
    (hn : lookupKey t identity = none) :
    EmailVerification.verify_code t identity code now
      = ⟨false, .codeNotFound, t⟩ := by
  unfold EmailVerification.verify_code
  simp only [hn]

/-- `verify_code` on a row older than 15 minutes: the expiry rejection. -/
theorem email_verify_expired (t : VTable) (identity code : String) (now : Int)
    (row : CodeRow) (hrow : lookupKey t identity = some row)
    (hexp : 15 * 60 < now - row.created_time) :
    EmailVerification.verify_code t identity code now
      = ⟨false, .codeExpired, t⟩ := by
  unfold EmailVerification.verify_code
  simp only [hrow]
  rw [if_pos hexp]

/-- `verify_code` on an unexpired row with the wrong code: the mismatch
rejection. -/
theorem email_verify_mismatch (t : VTable) (identity code : String) (now : Int)
    (row : CodeRow) (hrow : lookupKey t identity = some row)
    (hexp : ¬15 * 60 < now - row.created_time) (hm : code ≠ row.code) :
    EmailVerification.verify_code t identity code now
      = ⟨false, .codeMismatch, t⟩ := by
  unfold EmailVerification.verify_code
  simp only [hrow]
  rw [if_neg hexp, if_pos hm]

/-- `verify_code` on an unexpired row with the right code: success, row
deleted. -/
theorem email_verify_success (t : VTable) (identity code : String) (now : Int)
    (row : CodeRow) (hrow : lookupKey t identity = some row)
    (hexp : ¬15 * 60 < now - row.created_time) (hm : code = row.code) :
    EmailVerification.verify_code t identity code now
      = ⟨true, .verifyOk, eraseKey t identity⟩ := by
  unfold EmailVerification.verify_code
  simp only [hrow]
  rw [if_neg hexp, if_neg (show ¬code ≠ row.code from fun h => h hm)]

/-- `send_code` with no stored row goes straight to dispatch. -/
theorem email_send_none (t : VTable) (identity : String) (now : Int)
    (newCode : String) (ch : Bool) (hn : lookupKey t identity = none) :
    EmailVerification.send_code t identity now newCode ch
      = if ch then
          ⟨true, .sentOk, upsertKey t identity ⟨newCode, now, 1, some now⟩,
            some newCode⟩
        else ⟨false, .sendFailed, t, some newCode⟩ := by
  unfold EmailVerification.send_code
  simp only [hn]

/-- `send_code` inside the 60-second cooldown (raw condition form). -/
theorem email_send_cooldown_raw (t : VTable) (identity : String) (now : Int)
    (row : CodeRow) (newCode : String) (ch : Bool)
    (hrow : lookupKey t identity = some row)
    (hcool : (match row.last_attempt_time with
        | some la => decide (now - la < 60)
        | none => false) = true) :
    EmailVerification.send_code t identity now newCode ch
      = ⟨false, .cooldownWait, t, none⟩ := by
  unfold EmailVerification.send_code
  simp only [hrow]
  rw [if_pos hcool]

/-- `send_code` past the cooldown but at the issuance cap inside the 24-hour
window measured from the stored created_time: the rate-limit rejection. -/
theorem email_send_limited (t : VTable) (identity : String) (now : Int)
    (row : CodeRow) (newCode : String) (ch : Bool)
    (hrow : lookupKey t identity = some row)
    (hcool : (match row.last_attempt_time with
        | some la => decide (now - la < 60)
        | none => false) = false)
    (hlim : 5 ≤ row.attempts ∧ now - row.created_time < 24 * 3600) :
    EmailVerification.send_code t identity now newCode ch
      = ⟨false, .dailyLimitReached, t, none⟩ := by
  unfold EmailVerification.send_code
  simp only [hrow, hcool]
  rw [if_neg (by simp), if_pos hlim]

/-- `send_code` past the cooldown and not rate-limited: dispatch, and on channel
success the upsert (attempts reset to 0 first when the 24-hour window had
elapsed with the counter at the cap). -/
theorem email_send_proceed (t : VTable) (identity : String) (now : Int)
    (row : CodeRow) (newCode : String) (ch : Bool)
    (hrow : lookupKey t identity = some row)
    (hcool : (match row.last_attempt_time with
        | some la => decide (now - la < 60)
        | none => false) = false)
    (hlim : ¬(5 ≤ row.attempts ∧ now - row.created_time < 24 * 3600)) :
    EmailVerification.send_code t identity now newCode ch
      = if ch then
          ⟨true, .sentOk,
            upsertKey t identity
              ⟨newCode, now, (if 5 ≤ row.attempts then 0 else row.attempts) + 1,
                some now⟩,
            some newCode⟩
        else ⟨false, .sendFailed, t, some newCode⟩ := by
  unfold EmailVerification.send_code
  simp only [hrow, hcool]
  rw [if_neg (by simp), if_neg hlim]

/-- C2: `verify_code` (e-mail and SMS variants alike) succeeds iff a row is
stored for the identity, the supplied code equals the stored (most recently
issued) one, and at most 15 minutes have elapsed since its created_time; with
no stored row the result is the not-found rejection. -/
theorem claim_C2_verify_code_iff (t : VTable) (identity code : String) (now : Int) :
    ((EmailVerification.verify_code t identity code now).ok = true ↔
      ∃ row, lookupKey t identity = some row ∧ code = row.code ∧
        now - row.created_time ≤ 15 * 60) ∧
    ((SMSVerification.verify_code t identity code now).ok = true ↔
      ∃ row, lookupKey t identity = some row ∧ code = row.code ∧
        now - row.created_time ≤ 15 * 60) ∧
    (lookupKey t identity = none →
      EmailVerification.verify_code t identity code now
        = ⟨false, .codeNotFound, t⟩ ∧
      SMSVerification.verify_code t identity code now
        = ⟨false, .codeNotFound, t⟩) := by
  have hiff : (EmailVerification.verify_code t identity code now).ok = true ↔
      ∃ row, lookupKey t identity = some row ∧ code = row.code ∧
        now - row.created_time ≤ 15 * 60 := by
    cases hrow : lookupKey t identity with
    | none =>
      rw [email_verify_notFound t identity code now hrow]
      constructor
      · intro h
        simp at h
      · rintro ⟨row, hr, -, -⟩
        exact Option.noConfusion hr
    | some row =>
      by_cases hexp : 15 * 60 < now - row.created_time
      · rw [email_verify_expired t identity code now row hrow hexp]
        constructor
        · intro h
          simp at h
        · rintro ⟨row', hr, -, hv⟩
          cases Option.some.inj hr
          exact absurd hexp (by omega)
      · by_cases hm : code = row.code
        · rw [email_verify_success t identity code now row hrow hexp hm]
          exact ⟨fun _ => ⟨row, rfl, hm, by omega⟩, fun _ => rfl⟩
        · rw [email_verify_mismatch t identity code now row hrow hexp hm]
          constructor
          · intro h
            simp at h
          · rintro ⟨row', hr, hc, -⟩
            cases Option.some.inj hr
            exact absurd hc hm
  refine ⟨hiff, ?_, fun hn => ?_⟩
  · rw [sms_verify_code_eq_email]
    exact hiff
  · have hn2 := email_verify_notFound t identity code now hn
    exact ⟨hn2, by rw [sms_verify_code_eq_email]; exact hn2⟩

/-- C2 witness: the matching code verifies at exactly the 15-minute boundary,
and an identity with no stored row gets the not-found rejection. -/
theorem claim_C2_witness :
    (EmailVerification.verify_code exCodes "a@b.co" "123456" 900).ok = true ∧
    SMSVerification.verify_code exCodes "nobody" "123456" 900
      = ⟨false, .codeNotFound, exCodes⟩ := by
  have h := claim_C2_verify_code_iff exCodes "a@b.co" "123456" 900
  have h2 := claim_C2_verify_code_iff exCodes "nobody" "123456" 900
  exact ⟨h.1.mpr ⟨exCodeRow, by decide, by decide, by decide⟩,
    (h2.2.2 (by decide)).2⟩

/-- C4: a `send_code` call made less than 60 seconds after the stored
last_attempt_time is rejected with the cooldown error, with nothing handed to
the outbound channel and the table unchanged (both variants, whatever the
channel would have answered). -/
theorem claim_C4_resend_cooldown (t : VTable) (identity : String) (now la : Int)
    (row : CodeRow) (newCode : String) (channelOk : Bool)
    (hrow : lookupKey t identity = some row)
    (hla : row.last_attempt_time = some la) (h60 : now - la < 60) :
    EmailVerification.send_code t identity now newCode channelOk
      = ⟨false, .cooldownWait, t, none⟩ ∧
    SMSVerification.send_code t identity now newCode channelOk
      = ⟨false, .cooldownWait, t, none⟩ := by
  have he := email_send_cooldown_raw t identity now row newCode channelOk hrow
    (by rw [hla]; simpa using h60)
  exact ⟨he, by rw [sms_send_code_eq_email]; exact he⟩

/-- C4 witness: a second issuance 30 seconds after the first is rejected on
cooldown, store untouched, nothing dispatched. -/
theorem claim_C4_witness :
    EmailVerification.send_code exCodes "a@b.co" 30 "999999" true
      = ⟨false, .cooldownWait, exCodes, none⟩ ∧
    SMSVerification.send_code exCodes "a@b.co" 30 "999999" true
      = ⟨false, .cooldownWait, exCodes, none⟩ :=
  claim_C4_resend_cooldown exCodes "a@b.co" 30 0 exCodeRow "999999" true
    (by decide) (by decide) (by decide)

/-- C5: a successful `verify_code` deletes the stored row for that identity, so
an immediate repeat with the same identity and code is rejected with not-found
(both variants). -/
theorem claim_C5_single_use (t : VTable) (identity code : String) (now now2 : Int)
    (hok : (EmailVerification.verify_code t identity code now).ok = true) :
    lookupKey (EmailVerification.verify_code t identity code now).table identity
      = none ∧
    EmailVerification.verify_code
        (EmailVerification.verify_code t identity code now).table identity code now2
      = ⟨false, .codeNotFound,
          (EmailVerification.verify_code t identity code now).table⟩ ∧
    SMSVerification.verify_code
        (SMSVerification.verify_code t identity code now).table identity code now2
      = ⟨false, .codeNotFound,
          (SMSVerification.verify_code t identity code now).table⟩ := by
  have htab : (EmailVerification.verify_code t identity code now).table
      = eraseKey t identity := by
    cases hrow : lookupKey t identity with
    | none =>
      rw [email_verify_notFound t identity code now hrow] at hok
      simp at hok
    | some row =>
      by_cases hexp : 15 * 60 < now - row.created_time
      · rw [email_verify_expired t identity code now row hrow hexp] at hok
        simp at hok
      · by_cases hm : code = row.code
        · rw [email_verify_success t identity code now row hrow hexp hm]
        · rw [email_verify_mismatch t identity code now row hrow hexp hm] at hok
          simp at hok
  have hnone : lookupKey (EmailVerification.verify_code t identity code now).table
      identity = none := by
    rw [htab]
    exact lookupKey_eraseKey_self t identity
  refine ⟨hnone, ?_, ?_⟩
  · exact email_verify_notFound _ identity code now2 hnone
  · rw [sms_verify_code_eq_email]
    exact email_verify_notFound _ identity code now2 hnone

/-- C5 witness: verifying the stored code succeeds and deletes the row; the
identical repeat call then fails with not-found. -/
theorem claim_C5_witness :
    lookupKey (EmailVerification.verify_code exCodes "a@b.co" "123456" 60).table
      "a@b.co" = none ∧
    EmailVerification.verify_code
        (EmailVerification.verify_code exCodes "a@b.co" "123456" 60).table
        "a@b.co" "123456" 100
      = ⟨false, .codeNotFound,
          (EmailVerification.verify_code exCodes "a@b.co" "123456" 60).table⟩ := by
  have h := claim_C5_single_use exCodes "a@b.co" "123456" 60 100 (by decide)
  exact ⟨h.1, h.2.1⟩

/-- C7: when the outbound channel fails (the SMTP block raises; the SMS gateway
answers non-OK or raises) on a call that reached the dispatch step, `send_code`
returns the generic send-failure result and persists nothing: the table is
unchanged. -/
theorem claim_C7_channel_failure_not_persisted (t : VTable) (identity : String)
    (now : Int) (newCode : String)
    (hd : ((EmailVerification.send_code t identity now newCode false).dispatched).isSome
      = true) :
    EmailVerification.send_code t identity now newCode false
      = ⟨false, .sendFailed, t, some newCode⟩ ∧
    SMSVerification.send_code t identity now newCode false
      = ⟨false, .sendFailed, t, some newCode⟩ := by
  have he : EmailVerification.send_code t identity now newCode false
      = ⟨false, .sendFailed, t, some newCode⟩ := by
    cases hrow : lookupKey t identity with
    | none =>
      rw [email_send_none t identity now newCode false hrow]
      rfl
    | some row =>
      cases hcool : (match row.last_attempt_time with
          | some la => decide (now - la < 60)
          | none => false) with
      | true =>
        rw [email_send_cooldown_raw t identity now row newCode false hrow hcool]
          at hd
        simp at hd
      | false =>
        by_cases hlim : 5 ≤ row.attempts ∧ now - row.created_time < 24 * 3600
        · rw [email_send_limited t identity now row newCode false hrow hcool hlim]
            at hd
          simp at hd
        · rw [email_send_proceed t identity now row newCode false hrow hcool hlim]
          rfl
  exact ⟨he, by rw [sms_send_code_eq_email]; exact he⟩

/-- C7 witness: with a failing channel and a fresh identity, both variants
return the send-failure result and write nothing. -/
theorem claim_C7_witness :
    EmailVerification.send_code [] "a@b.co" 0 "123456" false
      = ⟨false, .sendFailed, [], some "123456"⟩ ∧
    SMSVerification.send_code [] "a@b.co" 0 "123456" false
      = ⟨false, .sendFailed, [], some "123456"⟩ :=
  claim_C7_channel_failure_not_persisted [] "a@b.co" 0 "123456" (by decide)

/-- C9: every failing `verify_code` call leaves the verification_codes table
exactly as it was — no row deleted, no counter touched — and a wrong guess
within the 15-minute validity window can be repeated any number of times, each
attempt rejected as a mismatch with the table unchanged (both variants). -/
theorem claim_C9_failing_verify_frame (t : VTable) (identity code : String)
    (now : Int) :
    ((EmailVerification.verify_code t identity code now).ok = false →
      (EmailVerification.verify_code t identity code now).table = t) ∧
    ((SMSVerification.verify_code t identity code now).ok = false →
      (SMSVerification.verify_code t identity code now).table = t) ∧
    (∀ row, lookupKey t identity = some row → now - row.created_time ≤ 15 * 60 →
      code ≠ row.code →
      EmailVerification.verify_code t identity code now
        = ⟨false, .codeMismatch, t⟩ ∧
      ∀ n : Nat,
        (fun s => (EmailVerification.verify_code s identity code now).table)^[n] t
          = t) := by
  have hframe : ∀ s : VTable,
      (EmailVerification.verify_code s identity code now).ok = false →
      (EmailVerification.verify_code s identity code now).table = s := by
    intro s hf
    cases hrow : lookupKey s identity with
    | none =>
      rw [email_verify_notFound s identity code now hrow]
    | some row =>
      by_cases hexp : 15 * 60 < now - row.created_time
      · rw [email_verify_expired s identity code now row hrow hexp]
      · by_cases hm : code = row.code
        · rw [email_verify_success s identity code now row hrow hexp hm] at hf
          simp at hf
        · rw [email_verify_mismatch s identity code now row hrow hexp hm]
  refine ⟨hframe t, ?_, fun row hrow hvalid hm => ?_⟩
  · rw [sms_verify_code_eq_email]
    exact hframe t
  · have hmis := email_verify_mismatch t identity code now row hrow
      (not_lt.mpr hvalid) hm
    refine ⟨hmis, fun n => ?_⟩
    induction n with
    | zero => rfl
    | succ k ih =>
      have hstep : (EmailVerification.verify_code t identity code now).table
          = t := by
        rw [hmis]
      rw [Function.iterate_succ_apply]
      show (fun s => (EmailVerification.verify_code s identity code now).table)^[k]
        ((EmailVerification.verify_code t identity code now).table) = t
      rw [hstep, ih]

/-- C9 witness: wrong guesses "000000" against the stored row are each rejected
as mismatches and, iterated three times, leave the table exactly as it was. -/
theorem claim_C9_witness :
    (EmailVerification.verify_code exCodes "a@b.co" "000000" 100).table
      = exCodes ∧
    EmailVerification.verify_code exCodes "a@b.co" "000000" 100
      = ⟨false, .codeMismatch, exCodes⟩ ∧
    (fun s => (EmailVerification.verify_code s "a@b.co" "000000" 100).table)^[3]
      exCodes = exCodes := by
  have h := claim_C9_failing_verify_frame exCodes "a@b.co" "000000" 100
  have h3 := h.2.2 exCodeRow (by decide) (by decide) (by decide)
  exact ⟨h.1 (by decide), h3.1, h3.2 3⟩

/-- C3 counterexample: five successful issuances for "a@b.co" at 0, 70, 140,
210 and 280 leave the row at attempts 5, created_time 280. The sixth call
comes at 86420 — more than 24 hours after the oldest issuance (time 0) and
more than 15 minutes after every issuance, so no unexpired code remains and a
24-hour window measured from the oldest unexpired code's creation time has
elapsed, where the claim promises success with the counter reset to 1. The
code instead rejects the call with the rate-limit error and leaves the store
unchanged, because it measures the window from the stored created_time, the
most recent issuance (280). -/
theorem claim_C3_counterexample :
    rateLimitState = [("a@b.co", ⟨"c5", 280, 5, some 280⟩)] ∧
    (86400 : Int) < 86420 - 0 ∧ (15 * 60 : Int) < 86420 - 280 ∧
    EmailVerification.send_code rateLimitState "a@b.co" 86420 "c6" true
      = ⟨false, .dailyLimitReached, rateLimitState, none⟩ := by
  decide

/-- C3 (amended): the issuance cap is enforced against a 24-hour window
measured from the created_time stored in the row — the creation time of the
most recent issuance, since every successful send overwrites it — not from the
oldest unexpired code: with the counter at 5 or more and the cooldown passed,
a call within 24 hours of the stored created_time is rejected with the
rate-limit error and the store unchanged, whatever the channel would have
answered; once 24 hours have elapsed since the stored created_time the call
succeeds (channel permitting) and the row is stored with attempts reset
to 1. -/
theorem claim_C3_amended_rate_limit_window (t : VTable) (identity : String)
    (now : Int) (row : CodeRow) (newCode : String)
    (hrow : lookupKey t identity = some row)
    (hcool : ∀ la, row.last_attempt_time = some la → 60 ≤ now - la)
    (hatt : 5 ≤ row.attempts) :
    (now - row.created_time < 24 * 3600 →
      ∀ channelOk,
        EmailVerification.send_code t identity now newCode channelOk
          = ⟨false, .dailyLimitReached, t, none⟩ ∧
        SMSVerification.send_code t identity now newCode channelOk
          = ⟨false, .dailyLimitReached, t, none⟩) ∧
    (24 * 3600 ≤ now - row.created_time →
      (EmailVerification.send_code t identity now newCode true).ok = true ∧
      lookupKey (EmailVerification.send_code t identity now newCode true).table
        identity = some ⟨newCode, now, 1, some now⟩ ∧
      (SMSVerification.send_code t identity now newCode true).ok = true ∧
      lookupKey (SMSVerification.send_code t identity now newCode true).table
        identity = some ⟨newCode, now, 1, some now⟩) := by
  have hcool2 : (match row.last_attempt_time with
      | some la => decide (now - la < 60)
      | none => false) = false := by
    cases hl : row.last_attempt_time with
    | none => rfl
    | some la =>
      have := hcool la hl
      simp only [decide_eq_false_iff_not]
      omega
  constructor
  · intro hwin channelOk
    have he := email_send_limited t identity now row newCode channelOk hrow
      hcool2 ⟨hatt, hwin⟩
    exact ⟨he, by rw [sms_send_code_eq_email]; exact he⟩
  · intro hwin
    have hlim : ¬(5 ≤ row.attempts ∧ now - row.created_time < 24 * 3600) := by
      rintro ⟨-, h⟩
      omega
    have he := email_send_proceed t identity now row newCode true hrow hcool2 hlim
    rw [if_pos rfl] at he
    simp only [hatt, if_true, zero_add] at he
    refine ⟨by rw [he], ?_, ?_, ?_⟩
    · rw [he]
      exact lookupKey_upsertKey_self t identity _
    · rw [sms_send_code_eq_email, he]
    · rw [sms_send_code_eq_email, he]
      exact lookupKey_upsertKey_self t identity _

/-- C3 amended-claim witness: with the counter at the cap (row created at 280),
a call at 86000 — within 24 hours of the stored created_time — is rejected with
the store unchanged, and a call at 86680 — 24 hours past it — succeeds and
stores attempts 1. -/
theorem claim_C3_witness :
    EmailVerification.send_code cappedCodes "13912345678" 86000 "c6" true
      = ⟨false, .dailyLimitReached, cappedCodes, none⟩ ∧
    (SMSVerification.send_code cappedCodes "13912345678" 86680 "c7" true).ok
      = true ∧
    lookupKey (SMSVerification.send_code cappedCodes "13912345678" 86680 "c7"
      true).table "13912345678" = some ⟨"c7", 86680, 1, some 86680⟩ := by
  have h1 := claim_C3_amended_rate_limit_window cappedCodes "13912345678" 86000
    cappedRow "c6" (by decide) (fun la hla => by
      simp [cappedRow] at hla
      omega) (by decide)
  have h2 := claim_C3_amended_rate_limit_window cappedCodes "13912345678" 86680
    cappedRow "c7" (by decide) (fun la hla => by
      simp [cappedRow] at hla
      omega) (by decide)
  exact ⟨(h1.1 (by decide) true).1, (h2.2 (by decide)).2.2.1,
    (h2.2 (by decide)).2.2.2⟩

/-- C6 counterexample: user "alice" stores the legacy weak (sha256) hash of her
correct password "pw123". The bcrypt-variant login raises instead of
succeeding, and the sha256-variant login succeeds while leaving the users
table — hence the stored legacy hash — exactly as it was: no hash is ever
rewritten to the stronger scheme on login. -/
theorem claim_C6_counterexample :
    legacyRow.password_hash = .sha256 "pw123" ∧
    UserManagerBcrypt.verify_user legacyUsers "alice" "pw123"
      = (.error "Invalid salt", legacyUsers) ∧
    UserManager.verify_user legacyUsers "alice" "pw123" = (true, legacyUsers) :=
  ⟨rfl, rfl, rfl⟩

/-- C6 (amended): `verify_user` hashes the supplied password and compares it to
the stored hash, and never modifies the stored data; there is no migration
path: the sha256 variant accepts a legacy hash without rewriting anything, and
the bcrypt variant raises on a stored legacy sha256-format hash rather than
recognizing and upgrading it. -/
theorem claim_C6_amended_no_migration (t : UsersTable) (username password : String)
    (u : UserRow) (hu : lookupKey t username = some u) :
    UserManager.verify_user t username password
      = (u.password_hash == UserManager.hash_password password, t) ∧
    ((UserManager.verify_user t username password).1 = true ↔
      u.password_hash = .sha256 password) ∧
    (∀ pw, u.password_hash = .sha256 pw →
      UserManagerBcrypt.verify_user t username password
        = (.error "Invalid salt", t)) := by
  have h1 : UserManager.verify_user t username password
      = (u.password_hash == UserManager.hash_password password, t) := by
    unfold UserManager.verify_user
    simp only [hu]
  refine ⟨h1, ?_, fun pw hpw => ?_⟩
  · rw [h1]
    simp [UserManager.hash_password]
  · unfold UserManagerBcrypt.verify_user
    simp only [hu, hpw]
    rfl

/-- C6 amended-claim witness at the legacy user. -/
theorem claim_C6_witness :
    ((UserManager.verify_user legacyUsers "alice" "pw123").1 = true ↔
      legacyRow.password_hash = .sha256 "pw123") ∧
    UserManagerBcrypt.verify_user legacyUsers "alice" "wrongpw"
      = (.error "Invalid salt", legacyUsers) := by
  have h := claim_C6_amended_no_migration legacyUsers "alice" "pw123" legacyRow
    (by decide)
  have h2 := claim_C6_amended_no_migration legacyUsers "alice" "wrongpw" legacyRow
    (by decide)
  exact ⟨h.2.1, h2.2.2 "pw123" rfl⟩

/-- C8 counterexample: "notanemail" fails the e-mail regex and "12345" fails
the phone regex, yet `send_code` performs no format check: with a working
outbound channel both calls dispatch a code and persist a row instead of
rejecting with a validation failure. -/
theorem claim_C8_counterexample :
    EmailVerification.is_valid_email "notanemail" = false ∧
    EmailVerification.send_code [] "notanemail" 0 "123456" true
      = ⟨true, .sentOk, [("notanemail", ⟨"123456", 0, 1, some 0⟩)],
          some "123456"⟩ ∧
    SMSVerification.is_valid_phone "12345" = false ∧
    SMSVerification.send_code [] "12345" 0 "654321" true
      = ⟨true, .sentOk, [("12345", ⟨"654321", 0, 1, some 0⟩)],
          some "654321"⟩ := by
  decide

/-- C8 (amended): `send_code` itself performs no format validation —
`is_valid_email` / `is_valid_phone` are separate predicates left to callers —
so an identity failing format validation is processed like any other: for a
fresh identity with a working channel the code is dispatched and the row
persisted. -/
theorem claim_C8_amended_no_validation_in_send (t : VTable) (identity : String)
    (now : Int) (newCode : String)
    (hinvalid : EmailVerification.is_valid_email identity = false ∨
      SMSVerification.is_valid_phone identity = false)
    (hfresh : lookupKey t identity = none) :
    EmailVerification.send_code t identity now newCode true
      = ⟨true, .sentOk, upsertKey t identity ⟨newCode, now, 1, some now⟩,
          some newCode⟩ ∧
    SMSVerification.send_code t identity now newCode true
      = ⟨true, .sentOk, upsertKey t identity ⟨newCode, now, 1, some now⟩,
          some newCode⟩ := by
  have he : EmailVerification.send_code t identity now newCode true
      = ⟨true, .sentOk, upsertKey t identity ⟨newCode, now, 1, some now⟩,
          some newCode⟩ := by
    rw [email_send_none t identity now newCode true hfresh]
    simp
  exact ⟨he, by rw [sms_send_code_eq_email]; exact he⟩

/-- C8 amended-claim witness: a format-invalid identity is accepted and its row
persisted. -/
theorem claim_C8_witness :
    EmailVerification.send_code [] "not valid" 5 "222222" true
      = ⟨true, .sentOk, upsertKey [] "not valid" ⟨"222222", 5, 1, some 5⟩,
          some "222222"⟩ :=
  (claim_C8_amended_no_validation_in_send [] "not valid" 5 "222222"
    (Or.inl (by decide)) (by decide)).1
